import Mathlib

/-!
Verification development for the usrpkg-builder mirroring tool.

The development shallowly embeds the mirroring engine:
  - the ref-resolution and promotion logic of `fetchPackage`
    (src/mirror/fetchAppstream.js: `findMirroredRefFile`, the known-path
    probes, the rev-parse fallback, `cleanupMirroredRefs`);
  - the per-component orchestration loop of src/index.js;
  - the catalog-fetch cache logic of `fetchAppstream`
    (src/mirror/fetchAppstream.js);
  - the metadata-reconciliation ladder of src/ostree/ostreeManager.js
    (`createSummary`, `manualUpdate`, and the per-ref commit loop shared
    with `commitAppstreamRefs`).

External collaborators (the ostree store commands, the network, gzip and
XML codecs) are modelled as oracles: functions supplied as parameters
describing the outcome of each external command.  JavaScript string
operations (`includes`, `endsWith`, `trim`, `replace`) are embedded as
executable character-list functions so that every definition evaluates
on concrete inputs.
-/

namespace UsrpkgBuilder

/-! ### JavaScript string primitives, embedded over character lists -/

/-- Contiguous-sublist test on character lists: JS `String.prototype.includes`. -/
def listContainsSub : List Char → List Char → Bool
  | _, [] => true
  | [], _ :: _ => false
  | h :: t, n => List.isPrefixOf n (h :: t) || listContainsSub t n

/-- JS `haystack.includes(needle)`. -/
def strContains (s pat : String) : Bool :=
  listContainsSub s.data pat.data

/-- JS `s.endsWith(pat)`. -/
def strEndsWith (s pat : String) : Bool :=
  List.isSuffixOf pat.data s.data

/-- JS `s.trim()`: strip leading and trailing whitespace. -/
def strTrim (s : String) : String :=
  ⟨((s.data.dropWhile Char.isWhitespace).reverse.dropWhile Char.isWhitespace).reverse⟩

/-- JS `s.replace(/\//g, path.sep)`; `path.sep` is `'/'` on the target platform,
so each `'/'` is mapped to `'/'`. -/
def sepNormalize (s : String) : String :=
  ⟨s.data.map (fun c => if c = '/' then '/' else c)⟩

/-- `path.join(a, b)` for the simple two-segment uses in the source. -/
def pathJoin (a b : String) : String := a ++ "/" ++ b

/-- JS truthiness filter on a located commit string: `null` and `""` are falsy. -/
def jsTruthy (x : Option String) : Option String :=
  match x with
  | some c => if c = "" then none else some c
  | none => none

/-! ### Data model

`Bundle` is the `$` attribute record of `component.bundle[0]` as parsed from
the appstream XML; `Component` keeps the fields the orchestrator reads
(`component.id` is a list of strings in the xml2js representation). -/

structure Bundle where
  btype : String
  runtime : Option String
  sdk : Option String
deriving DecidableEq

structure Component where
  id : List String
  bundle : List Bundle
deriving DecidableEq

/-- The decoded appstream catalog: `appstream_data.components.component`. -/
structure AppstreamData where
  components : List Component
deriving DecidableEq

/-- The configuration object as read by the engine: the repository
directory name, an optional title, and the remote list as
(name, url) pairs — the fields src/index.js and
src/ostree/ostreeManager.js consult. -/
structure Config where
  repo_name : String
  repo_title : Option String
  repo_remotes : List (String × String)
deriving DecidableEq

/-! ### Local refs: the store's ref directory as an association list

`ostree refs --repo=R --create=NAME COMMIT --force` creates or overwrites
the single ref file named NAME.  The ref directory is modelled as an
association list from ref name to commit. -/

/-- Forced (unconditional) ref create: overwrite every entry carrying the
name if one exists, otherwise append a fresh entry.  Models
`ostree refs --create=NAME COMMIT --force`. -/
def createRefForce (refs : List (String × String)) (name commit : String) :
    List (String × String) :=
  if refs.any (fun p => p.1 = name) then
    refs.map (fun p => if p.1 = name then (name, commit) else p)
  else refs ++ [(name, commit)]

/-- Look up the commit a local ref points at. -/
def lookupRef (refs : List (String × String)) (name : String) : Option String :=
  (refs.find? (fun p => p.1 = name)).map (fun p => p.2)

/-- Delete a ref by name, ignoring absence: `ostree refs --delete`. -/
def deleteRef (refs : List (String × String)) (name : String) :
    List (String × String) :=
  refs.filter (fun p => !(p.1 = name))

/-! ### Filesystem and store-command oracles

`FileSys` abstracts the filesystem reads `fetchPackage` performs:
`dirExists d` is `fs.access(d)` succeeding on a directory; `scanFiles d`
is the recursive traversal of `findFilesRecursive` rooted at `d`, listed
in traversal order as (path relative to `d`, file content) pairs;
`fileAt p` returns the content of a regular file at absolute path `p`
(the `fs.stat` + `isFile` + `readFile` sequence), `none` otherwise. -/

structure FileSys where
  dirExists : String → Bool
  scanFiles : String → List (String × String)
  fileAt : String → Option String

/-- Outcomes of the external ostree commands run by `fetchPackage`:
`pull repo app` is `ostree pull --mirror`, returning stdout or the exec
error message; `revParse spec` is `ostree rev-parse` returning stdout on
success; `create name commit` is `ostree refs --create=name commit --force`. -/
structure Oracle where
  pull : String → String → Except String String
  revParse : String → Option String
  create : String → String → Except String Unit

/-- The mutable store state threaded through a pass: the filesystem and
the local ref directory. -/
structure RepoState where
  fsys : FileSys
  refs : List (String × String)

/-! ### Ref resolution (src/mirror/fetchAppstream.js) -/

/-- The predicate of `findMirroredRefFile`'s recursive search:
`relative.endsWith(app) || relative.includes(app.replace(/\//g, path.sep))`. -/
def mirrorScanPred (app rel : String) : Bool :=
  strEndsWith rel app || strContains rel (sepNormalize app)

/-- `findMirroredRefFile(repoPath, app)`: if `repoPath/refs/mirrors` exists,
recursively scan it and return the first file matching `mirrorScanPred`
(as its relative path paired with its content); a missing scan root
yields `none`, not an error. -/
def findMirroredRefFile (fsys : FileSys) (repoPath app : String) :
    Option (String × String) :=
  let mirrorsDir := pathJoin repoPath "refs/mirrors"
  if fsys.dirExists mirrorsDir then
    ((fsys.scanFiles mirrorsDir).filter (fun e => mirrorScanPred app e.1)).head?
  else none

/-- The fixed, ordered candidate list (`knownPaths` in `fetchPackage`,
also `possibleMirrorPaths` in `cleanupMirroredRefs`). -/
def knownPaths (repo app : String) : List String :=
  [ "refs/mirrors/org." ++ repo ++ ".Stable/" ++ app
  , "refs/mirrors/" ++ repo ++ ".Stable/" ++ app
  , "refs/mirrors/" ++ repo ++ "/" ++ app
  , repo ++ ":" ++ app ]

/-- Step 2 of resolution: probe each known path under `repoPath` in order;
return the content of the first that is a regular file. -/
def probeKnownPaths (fsys : FileSys) (repoPath repo app : String) :
    Option String :=
  (knownPaths repo app).findSome? (fun p => fsys.fileAt (pathJoin repoPath p))

/-- Step 3 of resolution: `ostree rev-parse` first on the
collection-qualified ref-spec `repo:app`, then on the bare `app`;
the loop breaks at the first command that succeeds, taking its trimmed
stdout as the commit. -/
def revParseStep (o : Oracle) (repo app : String) : Option String :=
  match o.revParse (repo ++ ":" ++ app) with
  | some out => some (strTrim out)
  | none =>
    match o.revParse app with
    | some out => some (strTrim out)
    | none => none

/-- Steps 1–2: the file-based candidates.  Step 1's hit is read and
trimmed; only when the recursive scan found nothing are the known-path
probes attempted. -/
def fileCommit (fsys : FileSys) (repoPath repo app : String) : Option String :=
  match findMirroredRefFile fsys repoPath app with
  | some e => some (strTrim e.2)
  | none => (probeKnownPaths fsys repoPath repo app).map strTrim

/-- The commit-location logic of `fetchPackage`: file-based candidates
first; the rev-parse step runs only while `commit` is still JS-falsy
(`null` or `""`); a final falsy commit is `NotFound`. -/
def resolveCommit (o : Oracle) (fsys : FileSys) (repoPath repo app : String) :
    Option String :=
  let c1 := fileCommit fsys repoPath repo app
  let c2 :=
    match c1 with
    | some c => if c = "" then revParseStep o repo app else some c
    | none => revParseStep o repo app
  jsTruthy c2

/-! ### Promotion and cleanup (src/mirror/fetchAppstream.js) -/

/-- `cleanupMirroredRefs(repoPath, repo, app)`: unlink each candidate path
containing `"refs/mirrors/"` (errors ignored), then best-effort
`ostree refs --delete repo:app`. -/
def cleanupMirroredRefs (st : RepoState) (repoPath repo app : String) :
    RepoState :=
  let unlinked :=
    ((knownPaths repo app).filter (fun p => strContains p "refs/mirrors/")).map
      (pathJoin repoPath)
  { fsys :=
      { dirExists := st.fsys.dirExists
      , scanFiles := fun d =>
          (st.fsys.scanFiles d).filter
            (fun e => !(unlinked.contains (pathJoin d e.1)))
      , fileAt := fun p => if unlinked.contains p then none else st.fsys.fileAt p }
  , refs := deleteRef st.refs (repo ++ ":" ++ app) }

/-- The result of one `fetchPackage` call: the store state afterwards and
the commit promoted to the local ref, if any (`none` when the pull
succeeded but no commit could be located, in which case the function
returns early without creating a local ref). -/
structure FetchRes where
  state : RepoState
  promoted : Option String

/-- `fetchPackage(repo, app)` (src/mirror/fetchAppstream.js): pull in
mirror mode, locate the resulting commit, promote it to the local ref
named `app` with a forced create, then clean transient state.  Any
failing command inside the `try` block surfaces as a thrown
`Failed to run ostree pull: …` error; an unresolved commit is only a
warning and returns normally. -/
def fetchPackage (o : Oracle) (repoPath : String) (st : RepoState)
    (repo app : String) : Except String FetchRes :=
  match o.pull repo app with
  | .error e => .error ("Failed to run ostree pull: " ++ e)
  | .ok _stdout =>
    match resolveCommit o st.fsys repoPath repo app with
    | none => .ok { state := st, promoted := none }
    | some commit =>
      match o.create app commit with
      | .error e => .error ("Failed to run ostree pull: " ++ e)
      | .ok _ =>
        let st1 : RepoState := { st with refs := createRefForce st.refs app commit }
        .ok { state := cleanupMirroredRefs st1 repoPath repo app
            , promoted := some commit }

/-! ### The orchestrator loop (src/index.js) -/

/-- `component.id?.[0] || "unknown"`: the first id entry, with JS-falsy
(`""` or missing) replaced by `"unknown"`. -/
def appIdOf (c : Component) : String :=
  match c.id.head? with
  | some s => if s = "" then "unknown" else s
  | none => "unknown"

/-- The app PackageRef string built for a component. -/
def appRefOf (c : Component) : String :=
  "app/" ++ appIdOf c ++ "/x86_64/stable"

/-- The result of processing one component: the store state afterwards,
the refs for which `fetchPackage` was invoked (in order), the error
messages caught by the per-ref `try`/`catch` blocks, and whether the
component joins the mirrored set. -/
structure CompRes where
  state : RepoState
  attempted : List String
  errors : List String
  mirrored : Bool

/-- One iteration of the component loop in src/index.js: skip when
`component.bundle?.[0]?.["$"]` is missing; pull the app ref when the
bundle type is `"flatpak"` (errors caught, `appFetched` set only on
success); pull the runtime ref when named (errors caught); the SDK
block is commented out in the source and never runs; the component is
mirrored exactly when `appFetched` is true. -/
def processComponent (o : Oracle) (repoPath remote : String) (st : RepoState)
    (c : Component) : CompRes :=
  match c.bundle.head? with
  | none => { state := st, attempted := [], errors := [], mirrored := false }
  | some b =>
    let appStep :
        RepoState × List String × List String × Bool :=
      if b.btype = "flatpak" then
        match fetchPackage o repoPath st remote (appRefOf c) with
        | .ok r => (r.state, [appRefOf c], [], true)
        | .error e => (st, [appRefOf c], [e], false)
      else (st, [], [], false)
    let rtStep :
        RepoState × List String × List String :=
      match b.runtime with
      | some rt =>
        match fetchPackage o repoPath appStep.1 remote ("runtime/" ++ rt) with
        | .ok r => (r.state, ["runtime/" ++ rt], [])
        | .error e => (appStep.1, ["runtime/" ++ rt], [e])
      | none => (appStep.1, [], [])
    { state := rtStep.1
    , attempted := appStep.2.1 ++ rtStep.2.1
    , errors := appStep.2.2.1 ++ rtStep.2.2
    , mirrored := appStep.2.2.2 }

/-- Accumulated result of the loop over a remote's components. -/
structure PassRes where
  state : RepoState
  attempted : List String
  errors : List String
  mirrored : List Component

/-- The `for` loop over the selected components: each component is
processed in order, accumulating attempts, caught errors and the
mirrored set; no caught failure stops the iteration. -/
def runComponents (o : Oracle) (repoPath remote : String) (st : RepoState) :
    List Component → PassRes
  | [] => { state := st, attempted := [], errors := [], mirrored := [] }
  | c :: rest =>
    let r := processComponent o repoPath remote st c
    let tail := runComponents o repoPath remote r.state rest
    { state := tail.state
    , attempted := r.attempted ++ tail.attempted
    , errors := r.errors ++ tail.errors
    , mirrored := (if r.mirrored then [c] else []) ++ tail.mirrored }

/-- Per-remote processing: src/index.js takes
`appstream_data.components.component.slice(0, 3)` — the first three
catalog components — and runs the component loop on them, with the
store rooted at `config.repo_name`. -/
def processRemote (o : Oracle) (cfg : Config) (remote : String)
    (st : RepoState) (catalog : List Component) : PassRes :=
  runComponents o cfg.repo_name remote st (catalog.take 3)

/-- The PackageRef strings src/index.js derives from one component's
bundle metadata: the app ref when the bundle kind is `"flatpak"`, and
the runtime ref when one is named — never the SDK. -/
def derivedRefs (c : Component) : List String :=
  match c.bundle.head? with
  | none => []
  | some b =>
    (if b.btype = "flatpak" then [appRefOf c] else []) ++
    (match b.runtime with
     | some rt => ["runtime/" ++ rt]
     | none => [])

/-! ### Catalog fetch with fixed cache (src/mirror/fetchAppstream.js) -/

/-- The fixed temporary files `/tmp/appstream.xml` and
`/tmp/appstream.xml.gz`: `xmlFile`/`gzFile` hold their content when the
file exists. -/
structure CacheFS where
  xmlFile : Option String
  gzFile : Option String
deriving DecidableEq

/-- Result of `fetchAppstream`: the decoded catalog, the cache files
afterwards, and the list of URLs actually downloaded. -/
structure CatalogRes where
  data : AppstreamData
  cache : CacheFS
  downloads : List String
deriving DecidableEq

/-- `fetchAppstream(url)`: if the cached XML file exists it is parsed and
returned with no download, regardless of `url`; otherwise the gzip body
is downloaded from `url`, stored, decompressed into the XML cache file
and parsed.  `net u` is the HTTP fetch (error = non-ok status code),
`gunzip` the decompression, `parse` the xml2js `parseString`. -/
def fetchAppstream (net : String → Except Nat String)
    (gunzip : String → String)
    (parse : String → Except String AppstreamData)
    (cfs : CacheFS) (url : String) : Except String CatalogRes :=
  match cfs.xmlFile with
  | some data =>
    match parse data with
    | .ok r => .ok { data := r, cache := cfs, downloads := [] }
    | .error e => .error e
  | none =>
    match net url with
    | .error status => .error ("Failed to fetch: " ++ toString status)
    | .ok body =>
      let xml := gunzip body
      let cfs1 : CacheFS := { xmlFile := some xml, gzFile := some body }
      match parse xml with
      | .ok r => .ok { data := r, cache := cfs1, downloads := [url] }
      | .error e => .error e

/-! ### Metadata reconciliation (src/ostree/ostreeManager.js)

`ROracle` abstracts the external commands of the reconciliation ladder:
`buildUpdateRepo` is `flatpak build-update-repo` (Stage A),
`commitBranch b` is `ostree commit --branch=b … active/` returning the
new commit hash, `summaryUpdate` is `ostree summary -u`,
`addMetadata k v` is `ostree summary --add-metadata k=v`, and
`activeFiles` is `fs.readdir` of `appstream/x86_64/active`. -/

structure ROracle where
  buildUpdateRepo : Except String Unit
  commitBranch : String → Except String String
  summaryUpdate : Except String Unit
  addMetadata : String → String → Except String Unit
  activeFiles : Except String (List String)

/-- The two catalog refs committed by the fallback: the legacy
`appstream/x86_64` and the current `appstream2/x86_64`. -/
def appstreamRefNames : List String := ["appstream/x86_64", "appstream2/x86_64"]

/-- Result of the per-ref commit loop: the ref directory afterwards, the
refs whose commit succeeded (in order), and the warnings logged for the
refs whose commit failed. -/
structure CommitStepRes where
  refs : List (String × String)
  committed : List String
  warnings : List String

/-- The `for (const ref of refs)` commit loop shared by `manualUpdate`
(src/ostree/ostreeManager.js) and `commitAppstreamRefs`
(src/unnamed/part_000): each branch is committed inside its own
`try`/`catch`, so one ref's failure is only a warning and the next ref
is still attempted.  A successful `ostree commit --branch=b` moves the
branch ref to the new commit. -/
def commitLoop (o : ROracle) (refs : List (String × String)) :
    List String → CommitStepRes
  | [] => { refs := refs, committed := [], warnings := [] }
  | b :: rest =>
    match o.commitBranch b with
    | .ok h =>
      let t := commitLoop o (createRefForce refs b h) rest
      { refs := t.refs, committed := b :: t.committed, warnings := t.warnings }
    | .error e =>
      let t := commitLoop o refs rest
      { refs := t.refs, committed := t.committed
      , warnings := ("Could not commit to " ++ b ++ ": " ++ e) :: t.warnings }

/-- Step 1 of the manual fallback: read the staging directory; when it is
missing or empty only a warning is logged, otherwise commit the staged
tree to both catalog refs via `commitLoop`. -/
def commitAppstreamStep (o : ROracle) (refs : List (String × String)) :
    CommitStepRes :=
  match o.activeFiles with
  | .error e =>
    { refs := refs, committed := []
    , warnings := ["Could not commit appstream: " ++ e] }
  | .ok files =>
    if files.isEmpty then
      { refs := refs, committed := [], warnings := ["No appstream files to commit"] }
    else commitLoop o refs appstreamRefNames

/-- The auxiliary summary metadata written by `addFlatpakMetadata`. -/
def metadataItems (cfg : Config) : List (String × String) :=
  [ ("xa.title", cfg.repo_name)
  , ("xa.comment", "Mirrored Flatpak Repository")
  , ("xa.homepage", "http://192.168.3.140/usrpkg-builder/usrpkg-repo/") ]

/-- `addFlatpakMetadata`: each key is added inside its own `try`/`catch`;
returns (keys added, warnings). -/
def addMetadataStep (o : ROracle) :
    List (String × String) → List String × List String
  | [] => ([], [])
  | (k, v) :: rest =>
    let t := addMetadataStep o rest
    match o.addMetadata k v with
    | .ok _ => (k :: t.1, t.2)
    | .error e => (t.1, ("Could not add " ++ k ++ ": " ++ e) :: t.2)

/-- Outcome of `createSummary`: the ref directory afterwards, whether the
manual fallback ran, which catalog refs the fallback committed, the
accumulated warnings, and the final outcome (`.error` models an
uncaught throw escaping `createSummary`). -/
structure ReconcileRes where
  refs : List (String × String)
  usedFallback : Bool
  committed : List String
  warnings : List String
  outcome : Except String Unit

/-- `manualUpdate()`: step 1 commits the staged appstream tree (failures
swallowed); step 2 runs `ostree summary -u` and **throws** on failure;
step 3 adds the auxiliary metadata (failures swallowed). -/
def manualUpdate (o : ROracle) (cfg : Config)
    (refs : List (String × String)) : ReconcileRes :=
  let s1 := commitAppstreamStep o refs
  match o.summaryUpdate with
  | .error e =>
    { refs := s1.refs, usedFallback := true, committed := s1.committed
    , warnings := s1.warnings
    , outcome := .error ("Failed to update summary: " ++ e) }
  | .ok _ =>
    let meta := addMetadataStep o (metadataItems cfg)
    { refs := s1.refs, usedFallback := true, committed := s1.committed
    , warnings := s1.warnings ++ meta.2, outcome := .ok () }

/-- `createSummary()`: Stage A is `flatpak build-update-repo`; only when
it fails does the catch run `manualUpdate` (whose own step-2 throw is
not caught and escapes `createSummary`).  Stage A recomputes summary
and catalog metadata in the store; it does not rewrite local app refs. -/
def createSummary (o : ROracle) (cfg : Config)
    (refs : List (String × String)) : ReconcileRes :=
  match o.buildUpdateRepo with
  | .ok _ =>
    { refs := refs, usedFallback := false, committed := [], warnings := []
    , outcome := .ok () }
  | .error _ => manualUpdate o cfg refs

/-- The tail of src/index.js after the mirroring loop: `createSummary()`
is awaited at top level with no surrounding `try`/`catch`, so a thrown
reconciliation error aborts the run before `generateFlatpakrepoFile()`;
on success the run completes (`true` = the .flatpakrepo step ran). -/
def finalizeRun (o : ROracle) (cfg : Config)
    (refs : List (String × String)) :
    Except String (List (String × String) × Bool) :=
  let r := createSummary o cfg refs
  match r.outcome with
  | .error e => .error e
  | .ok _ => .ok (r.refs, true)

/-! ### Concrete store states and oracles used to evaluate the model -/

/-- A store with no transient mirror artifacts and no files. -/
def emptyFS : FileSys :=
  { dirExists := fun _ => false
  , scanFiles := fun _ => []
  , fileAt := fun _ => none }

/-- An empty repository state. -/
def st0 : RepoState := { fsys := emptyFS, refs := [] }

/-- Oracle where every pull and ref create succeeds but no commit can be
located by any strategy. -/
def okOracle : Oracle :=
  { pull := fun _ _ => .ok ""
  , revParse := fun _ => none
  , create := fun _ _ => .ok () }

/-- Oracle where pulls succeed and only the collection-qualified
rev-parse query knows the commit. -/
def rvOracle : Oracle :=
  { pull := fun _ _ => .ok ""
  , revParse := fun spec =>
      if spec = "flathub:app/org.example.App/x86_64/stable" then
        some "c0ffee42\n"
      else none
  , create := fun _ _ => .ok () }

/-- A catalog component with a flatpak bundle, a runtime and an SDK. -/
def compA : Component :=
  { id := ["org.example.App"]
  , bundle := [{ btype := "flatpak"
               , runtime := some "org.fd.Platform/x86_64/23.08"
               , sdk := some "org.fd.Sdk/x86_64/23.08" }] }

/-- A store whose transient-mirror scan root is absent while the direct
ref-spec candidate path (the fourth known path) exists as a file. -/
def fsC3 : FileSys :=
  { dirExists := fun _ => false
  , scanFiles := fun _ => []
  , fileAt := fun p =>
      if p = "repo/flathub:app/org.example.App/x86_64/stable" then
        some "aaaa1111"
      else none }

/-- Oracle whose rev-parse always answers a distinct commit. -/
def oC3 : Oracle :=
  { pull := fun _ _ => .ok ""
  , revParse := fun _ => some "bbbb2222"
  , create := fun _ _ => .ok () }

/-- Reconciliation oracle where Stage A and the fallback's summary update
both fail while the staged catalog commits succeed. -/
def oC7 : ROracle :=
  { buildUpdateRepo := .error "exit 1"
  , commitBranch := fun _ => .ok "cafe0001"
  , summaryUpdate := .error "disk full"
  , addMetadata := fun _ _ => .ok ()
  , activeFiles := .ok ["appstream.xml", "appstream.xml.gz"] }

/-- Reconciliation oracle where Stage A fails, the legacy catalog-ref
commit fails and everything else succeeds. -/
def oC6 : ROracle :=
  { buildUpdateRepo := .error "exit 1"
  , commitBranch := fun b =>
      if b = "appstream/x86_64" then .error "legacy commit refused"
      else .ok "cafe0002"
  , summaryUpdate := .ok ()
  , addMetadata := fun _ _ => .ok ()
  , activeFiles := .ok ["appstream.xml"] }

/-- A configuration naming the repository directory. -/
def cfg0 : Config :=
  { repo_name := "usrpkg-repo", repo_title := none
  , repo_remotes := [("flathub", "https://dl.flathub.org/repo")] }

/-- Oracle where every pull fails with an HTTP 404. -/
def failOracle : Oracle :=
  { pull := fun _ _ => .error "404"
  , revParse := fun _ => none
  , create := fun _ _ => .ok () }

/-- Local refs as promoted by a mirroring pass. -/
def refs0 : List (String × String) :=
  [("app/org.example.App/x86_64/stable", "1111beef")]

/-- Whether an external command succeeded. -/
def exceptOk {α : Type} : Except String α → Bool
  | .ok _ => true
  | .error _ => false

/-- Concrete gzip decoder used to evaluate the catalog-fetch model. -/
def gunzipW : String → String := fun s => "<xml>" ++ s ++ "</xml>"

/-- Concrete catalog decoder used to evaluate the catalog-fetch model. -/
def parseW : String → Except String AppstreamData :=
  fun s => .ok { components := [{ id := [s], bundle := [] }] }

/-- A network returning a distinct body per URL. -/
def netW : String → Except Nat String := fun u => .ok ("gz-" ++ u)

/-- A network that always fails with HTTP 500. -/
def netW2 : String → Except Nat String := fun _ => .error 500

/-- A warm cache: `/tmp/appstream.xml` already exists. -/
def cacheW : CacheFS := { xmlFile := some "CACHED", gzFile := none }

/-- A cold cache: neither temporary file exists. -/
def cacheCold : CacheFS := { xmlFile := none, gzFile := none }

/-- A four-component catalog, to exercise the per-remote cap. -/
def catalogW : List Component :=
  [ compA
  , { id := ["org.example.B"], bundle := [{ btype := "flatpak", runtime := none, sdk := none }] }
  , { id := ["org.example.C"], bundle := [] }
  , { id := ["org.example.D"], bundle := [{ btype := "flatpak", runtime := none, sdk := none }] } ]

/-! ## Theorems -/

/-! ### Promotion: forced ref create (C4) -/

theorem find_key_map_self (refs : List (String × String)) (n c : String)
    (h : refs.any (fun p => p.1 = n) = true) :
    (refs.map (fun p => if p.1 = n then (n, c) else p)).find?
      (fun p => p.1 = n) = some (n, c) := by
  induction refs with
  | nil => simp at h
  | cons p rest ih =>
    by_cases hp : p.1 = n
    · simp [hp, List.find?]
    · simp only [List.any_cons, Bool.or_eq_true, decide_eq_true_eq] at h
      rcases h with h | h
      · exact absurd h hp
      · simpa [hp, List.find?] using ih h

theorem find_key_append_self (refs : List (String × String)) (n c : String)
    (h : refs.any (fun p => p.1 = n) = false) :
    (refs ++ [(n, c)]).find? (fun p => p.1 = n) = some (n, c) := by
  induction refs with
  | nil => simp [List.find?]
  | cons p rest ih =>
    simp only [List.any_cons, Bool.or_eq_false_iff, decide_eq_false_iff_not] at h
    simpa [List.find?, h.1] using ih (by simpa using h.2)

theorem lookupRef_createRefForce_self (refs : List (String × String))
    (n c : String) :
    lookupRef (createRefForce refs n c) n = some c := by
  unfold lookupRef createRefForce
  by_cases h : refs.any (fun p => p.1 = n) = true
  · simp [h, find_key_map_self refs n c h]
  · simp only [Bool.not_eq_true] at h
    simp [h, find_key_append_self refs n c h]

theorem forall_key_eq_createRefForce (refs : List (String × String))
    (n c : String) :
    ∀ q ∈ createRefForce refs n c, q.1 = n → q = (n, c) := by
  unfold createRefForce
  by_cases h : refs.any (fun p => p.1 = n) = true
  · simp only [h, if_true, List.mem_map]
    rintro q ⟨p, _, rfl⟩ hq
    by_cases hp : p.1 = n
    · simp [hp]
    · simp [hp] at hq
  · simp only [Bool.not_eq_true] at h
    simp only [h, Bool.false_eq_true, if_false, List.mem_append, List.mem_singleton]
    rintro q (hq | rfl) hkey
    · rcases List.any_eq_false.mp h q hq with hne
      simp only [decide_eq_true_eq] at hne
      exact absurd hkey hne
    · rfl

theorem any_key_createRefForce (refs : List (String × String)) (n c : String) :
    (createRefForce refs n c).any (fun p => p.1 = n) = true := by
  unfold createRefForce
  by_cases h : refs.any (fun p => p.1 = n) = true
  · rcases List.any_eq_true.mp h with ⟨p, hp, hkey⟩
    simp only [decide_eq_true_eq] at hkey
    simp only [h, if_true]
    exact List.any_eq_true.mpr ⟨(n, c), List.mem_map.mpr ⟨p, hp, by simp [hkey]⟩, by simp⟩
  · simp only [Bool.not_eq_true] at h
    simp [h]

theorem createRefForce_idem (refs : List (String × String)) (n c : String) :
    createRefForce (createRefForce refs n c) n c = createRefForce refs n c := by
  have hany := any_key_createRefForce refs n c
  have hfix := forall_key_eq_createRefForce refs n c
  conv_lhs => rw [createRefForce]
  rw [if_pos hany]
  have : ∀ q ∈ createRefForce refs n c,
      (if q.1 = n then (n, c) else q) = q := by
    intro q hq
    by_cases hk : q.1 = n
    · rw [if_pos hk, hfix q hq hk]
    · rw [if_neg hk]
  calc (createRefForce refs n c).map (fun q => if q.1 = n then (n, c) else q)
      = (createRefForce refs n c).map id := List.map_congr_left this
    _ = createRefForce refs n c := List.map_id _

theorem countP_key_map (refs : List (String × String)) (n c : String) :
    (refs.map (fun p => if p.1 = n then (n, c) else p)).countP
      (fun p => p.1 = n) = refs.countP (fun p => p.1 = n) := by
  rw [List.countP_map]
  apply List.countP_congr
  intro p _
  by_cases hp : p.1 = n <;> simp [hp]

theorem countP_key_le_one (refs : List (String × String)) (n : String)
    (hnd : (refs.map Prod.fst).Nodup) :
    refs.countP (fun p => p.1 = n) ≤ 1 := by
  induction refs with
  | nil => simp
  | cons p rest ih =>
    simp only [List.map_cons, List.nodup_cons] at hnd
    by_cases hp : p.1 = n
    · have hzero : rest.countP (fun q => q.1 = n) = 0 := by
        apply List.countP_eq_zero.mpr
        intro q hq
        simp only [decide_eq_true_eq]
        intro hqn
        exact hnd.1 (hp ▸ hqn ▸ List.mem_map_of_mem Prod.fst hq)
      simp [List.countP_cons, hp, hzero]
    · simpa [List.countP_cons, hp] using ih hnd.2

theorem countP_key_createRefForce (refs : List (String × String))
    (n c : String) (hnd : (refs.map Prod.fst).Nodup) :
    (createRefForce refs n c).countP (fun p => p.1 = n) = 1 := by
  unfold createRefForce
  by_cases h : refs.any (fun p => p.1 = n) = true
  · rw [if_pos h, countP_key_map]
    have hpos : 0 < refs.countP (fun p => p.1 = n) := by
      rcases List.any_eq_true.mp h with ⟨p, hp, hkey⟩
      exact List.countP_pos_iff.mpr ⟨p, hp, hkey⟩
    have hle := countP_key_le_one refs n hnd
    omega

  · rw [if_neg h]
    have hzero : refs.countP (fun p => p.1 = n) = 0 := by
      apply List.countP_eq_zero.mpr
      intro q hq hqn
      exact h (List.any_eq_true.mpr ⟨q, hq, hqn⟩)
    simp [List.countP_append, hzero, List.countP_cons]

theorem keys_createRefForce_nodup (refs : List (String × String))
    (n c : String) (hnd : (refs.map Prod.fst).Nodup) :
    ((createRefForce refs n c).map Prod.fst).Nodup := by
  unfold createRefForce
  by_cases h : refs.any (fun p => p.1 = n) = true
  · rw [if_pos h]
    have : (refs.map (fun p => if p.1 = n then (n, c) else p)).map Prod.fst
        = refs.map Prod.fst := by
      rw [List.map_map]
      apply List.map_congr_left
      intro p _
      by_cases hp : p.1 = n <;> simp [hp]
    rw [this]; exact hnd
  · rw [if_neg h]
    rw [List.map_append]
    simp only [List.map_cons, List.map_nil]
    rw [List.nodup_append]
    refine ⟨hnd, List.nodup_singleton n, ?_⟩
    intro a ha hb
    simp only [List.mem_singleton] at hb
    subst hb
    rcases List.mem_map.mp ha with ⟨p, hp, hkey⟩
    exact h (List.any_eq_true.mpr ⟨p, hp, by simp [hkey]⟩)

/-- C4: Promotion is a forced (unconditional) ref create, hence idempotent
and overwriting: with a well-formed ref directory (distinct ref names),
promoting PackageRef P to commit C twice leaves the directory exactly as
one promotion does, with exactly one ref named P, pointing at C; and
promoting P to C₁ and then to C₂ leaves P pointing at C₂. -/
theorem promotion_forced_idempotent_overwrite
    (refs : List (String × String)) (P C Ca Cb : String)
    (hnd : (refs.map Prod.fst).Nodup) :
    createRefForce (createRefForce refs P C) P C = createRefForce refs P C ∧
    (createRefForce (createRefForce refs P C) P C).countP
      (fun p => p.1 = P) = 1 ∧
    lookupRef (createRefForce (createRefForce refs P C) P C) P = some C ∧
    lookupRef (createRefForce (createRefForce refs P Ca) P Cb) P = some Cb := by
  refine ⟨createRefForce_idem refs P C, ?_, ?_, lookupRef_createRefForce_self _ P Cb⟩
  · rw [createRefForce_idem refs P C]
    exact countP_key_createRefForce refs P C hnd
  · rw [createRefForce_idem refs P C]
    exact lookupRef_createRefForce_self refs P C

/-- Witness for C4 at a concrete ref directory. -/
theorem promotion_forced_idempotent_overwrite_witness :
    createRefForce (createRefForce refs0 "app/org.gimp.GIMP/x86_64/stable" "2222feed")
        "app/org.gimp.GIMP/x86_64/stable" "2222feed"
      = createRefForce refs0 "app/org.gimp.GIMP/x86_64/stable" "2222feed" ∧
    (createRefForce (createRefForce refs0 "app/org.gimp.GIMP/x86_64/stable" "2222feed")
        "app/org.gimp.GIMP/x86_64/stable" "2222feed").countP
      (fun p => p.1 = "app/org.gimp.GIMP/x86_64/stable") = 1 ∧
    lookupRef (createRefForce (createRefForce refs0 "app/org.gimp.GIMP/x86_64/stable" "2222feed")
        "app/org.gimp.GIMP/x86_64/stable" "2222feed")
      "app/org.gimp.GIMP/x86_64/stable" = some "2222feed" ∧
    lookupRef (createRefForce (createRefForce refs0 "app/org.gimp.GIMP/x86_64/stable" "aaaa0001")
        "app/org.gimp.GIMP/x86_64/stable" "bbbb0002")
      "app/org.gimp.GIMP/x86_64/stable" = some "bbbb0002" :=
  promotion_forced_idempotent_overwrite refs0
    "app/org.gimp.GIMP/x86_64/stable" "2222feed" "aaaa0001" "bbbb0002"
    (by decide)

/-! ### Ref resolution: strategy order (C2, C3) -/

/-- C2: resolution tries its strategies in strict order, stopping at the
first success: (1) the recursive transient-mirror scan; (2) only when
the scan yields no file, the fixed ordered candidate-path probes;
(3) only when no file-based candidate yields a commit, the rev-parse
query, first on `remoteName:packageRef`, then on the bare packageRef —
so step 3 is reachable whenever no file-based candidate exists. -/
theorem resolve_strategy_order (o : Oracle) (fsys : FileSys)
    (rp repo app : String) :
    (∀ e, findMirroredRefFile fsys rp app = some e → strTrim e.2 ≠ "" →
      resolveCommit o fsys rp repo app = some (strTrim e.2)) ∧
    (∀ content, findMirroredRefFile fsys rp app = none →
      probeKnownPaths fsys rp repo app = some content → strTrim content ≠ "" →
      resolveCommit o fsys rp repo app = some (strTrim content)) ∧
    (∀ out, findMirroredRefFile fsys rp app = none →
      probeKnownPaths fsys rp repo app = none →
      o.revParse (repo ++ ":" ++ app) = some out → strTrim out ≠ "" →
      resolveCommit o fsys rp repo app = some (strTrim out)) ∧
    (∀ out, findMirroredRefFile fsys rp app = none →
      probeKnownPaths fsys rp repo app = none →
      o.revParse (repo ++ ":" ++ app) = none →
      o.revParse app = some out → strTrim out ≠ "" →
      resolveCommit o fsys rp repo app = some (strTrim out)) := by
  refine ⟨?_, ?_, ?_, ?_⟩
  · intro e he hne
    simp [resolveCommit, fileCommit, he, jsTruthy, hne]
  · intro content hfind hprobe hne
    simp [resolveCommit, fileCommit, hfind, hprobe, jsTruthy, hne]
  · intro out hfind hprobe hrv hne
    simp [resolveCommit, fileCommit, revParseStep, hfind, hprobe, hrv,
      jsTruthy, hne]
  · intro out hfind hprobe hrv1 hrv2 hne
    simp [resolveCommit, fileCommit, revParseStep, hfind, hprobe, hrv1, hrv2,
      jsTruthy, hne]

/-- Witness for C2: a store with no file-based candidate at all, where
the collection-qualified rev-parse query answers — resolution reaches
step 3 and returns that commit. -/
theorem resolve_strategy_order_witness :
    resolveCommit rvOracle emptyFS "usrpkg-repo" "flathub"
        "app/org.example.App/x86_64/stable" = some "c0ffee42" := by
  have h := (resolve_strategy_order rvOracle emptyFS "usrpkg-repo" "flathub"
      "app/org.example.App/x86_64/stable").2.2.1 "c0ffee42\n"
      (by decide) (by decide) (by decide) (by decide)
  rw [h]
  decide

/-- C3 counterexample: a store whose scan root `repo/refs/mirrors` does
not exist, but whose fourth candidate path (the direct ref-spec
`flathub:app/…`) exists as a file holding `aaaa1111`, while rev-parse
would answer `bbbb2222`.  Resolution returns the step-2 probe's content,
not the rev-parse commit — the missing scan root does **not** skip the
candidate-path probes. -/
theorem missing_scan_root_uses_probes_cex :
    fsC3.dirExists (pathJoin "repo" "refs/mirrors") = false ∧
    resolveCommit oC3 fsC3 "repo" "flathub"
      "app/org.example.App/x86_64/stable" = some "aaaa1111" ∧
    revParseStep oC3 "flathub" "app/org.example.App/x86_64/stable"
      = some "bbbb2222" ∧
    ("aaaa1111" : String) ≠ "bbbb2222" := by
  refine ⟨rfl, by decide, by decide, by decide⟩

/-- C3 as amended: when the recursive-scan root does not exist, the scan
yields nothing and is not an error; resolution proceeds to step 2's
candidate-path probes, and reaches step 3 (the rev-parse query, under
JS truthiness) only when every candidate probe also fails. -/
theorem missing_scan_root_falls_to_probes (o : Oracle) (fsys : FileSys)
    (rp repo app : String)
    (h : fsys.dirExists (pathJoin rp "refs/mirrors") = false) :
    findMirroredRefFile fsys rp app = none ∧
    (∀ content, probeKnownPaths fsys rp repo app = some content →
      strTrim content ≠ "" →
      resolveCommit o fsys rp repo app = some (strTrim content)) ∧
    (probeKnownPaths fsys rp repo app = none →
      resolveCommit o fsys rp repo app = jsTruthy (revParseStep o repo app)) := by
  have hfind : findMirroredRefFile fsys rp app = none := by
    simp [findMirroredRefFile, h]
  refine ⟨hfind, ?_, ?_⟩
  · intro content hprobe hne
    simp [resolveCommit, fileCommit, hfind, hprobe, jsTruthy, hne]
  · intro hprobe
    simp [resolveCommit, fileCommit, hfind, hprobe]

/-- Witness for the amended C3 at the concrete store of the
counterexample: the probes are consulted and their hit is returned. -/
theorem missing_scan_root_falls_to_probes_witness :
    findMirroredRefFile fsC3 "repo" "app/org.example.App/x86_64/stable" = none ∧
    resolveCommit oC3 fsC3 "repo" "flathub"
      "app/org.example.App/x86_64/stable" = some "aaaa1111" := by
  have h := missing_scan_root_falls_to_probes oC3 fsC3 "repo" "flathub"
    "app/org.example.App/x86_64/stable" (by decide)
  refine ⟨h.1, ?_⟩
  have h2 := h.2.1 "aaaa1111" (by decide) (by decide)
  rw [h2]
  decide

/-! ### Mirrored-set membership (C1) -/

/-- When a fetch returns without promoting (`promoted = none`, the
unresolved-commit early return), the store state is untouched: no local
ref was created. -/
theorem fetchPackage_unresolved_state (o : Oracle) (rp : String)
    (st : RepoState) (repo app : String) (r : FetchRes)
    (h : fetchPackage o rp st repo app = .ok r) (hp : r.promoted = none) :
    r.state = st := by
  unfold fetchPackage at h
  cases hpull : o.pull repo app with
  | error e => simp [hpull] at h
  | ok out =>
    cases hres : resolveCommit o st.fsys rp repo app with
    | none =>
      simp [hpull, hres] at h
      rw [← h]
    | some commit =>
      cases hcr : o.create app commit with
      | error e => simp [hpull, hres, hcr] at h
      | ok u =>
        simp [hpull, hres, hcr] at h
        rw [← h] at hp
        simp at hp

/-- C1 counterexample: the app pull succeeds but no strategy locates a
commit, so `fetchPackage` returns early without creating any local ref
(`promoted = none`, the ref directory stays empty) — and the component
is nevertheless added to the mirrored set. -/
theorem mirrored_despite_unresolved_commit :
    (processComponent okOracle "usrpkg-repo" "flathub" st0 compA).mirrored
      = true ∧
    (processComponent okOracle "usrpkg-repo" "flathub" st0 compA).state.refs
      = [] ∧
    lookupRef
      (processComponent okOracle "usrpkg-repo" "flathub" st0 compA).state.refs
      (appRefOf compA) = none ∧
    fetchPackage okOracle "usrpkg-repo" st0 "flathub" (appRefOf compA)
      = .ok { state := st0, promoted := none } :=
  ⟨by decide, by decide, by decide, rfl⟩

/-- C1 as amended: a component enters the mirrored set exactly when its
first bundle record exists, has type `"flatpak"`, and the app
`fetchPackage` call returned without throwing — promotion is NOT
required: a successful pull whose commit stays unresolved also counts,
even though it creates no local ref (second conjunct), while an app
fetch that throws excludes the component regardless of the runtime. -/
theorem mirrored_iff_app_fetch_ok (o : Oracle) (rp rn : String)
    (st : RepoState) (c : Component) :
    ((processComponent o rp rn st c).mirrored = true ↔
      (∃ b, c.bundle.head? = some b ∧ b.btype = "flatpak" ∧
        ∃ r, fetchPackage o rp st rn (appRefOf c) = .ok r)) ∧
    (∀ r, fetchPackage o rp st rn (appRefOf c) = .ok r → r.promoted = none →
      r.state = st) := by
  constructor
  · cases hb : c.bundle.head? with
    | none => simp [processComponent, hb]
    | some b =>
      by_cases hbt : b.btype = "flatpak"
      · cases hf : fetchPackage o rp st rn (appRefOf c) with
        | ok r => simp [processComponent, hb, hbt, hf]
        | error e => simp [processComponent, hb, hbt, hf]
      · simp [processComponent, hb, hbt]
  · intro r h hp
    exact fetchPackage_unresolved_state o rp st rn (appRefOf c) r h hp

/-- Witness for the amended C1 at the concrete component of the
counterexample store. -/
theorem mirrored_iff_app_fetch_ok_witness :
    (processComponent okOracle "usrpkg-repo" "flathub" st0 compA).mirrored
      = true ∧
    ({ state := st0, promoted := none } : FetchRes).state = st0 :=
  ⟨(mirrored_iff_app_fetch_ok okOracle "usrpkg-repo" "flathub" st0 compA).1.mpr
      ⟨{ btype := "flatpak"
       , runtime := some "org.fd.Platform/x86_64/23.08"
       , sdk := some "org.fd.Sdk/x86_64/23.08" }, rfl, rfl,
        ⟨{ state := st0, promoted := none }, rfl⟩⟩,
    (mirrored_iff_app_fetch_ok okOracle "usrpkg-repo" "flathub" st0 compA).2
      { state := st0, promoted := none } rfl rfl⟩

/-! ### Orchestrator loop (C5, C8, C10) -/

theorem processComponent_attempted (o : Oracle) (rp rn : String)
    (st : RepoState) (c : Component) :
    (processComponent o rp rn st c).attempted = derivedRefs c := by
  unfold processComponent derivedRefs
  cases hb : c.bundle.head? with
  | none => rfl
  | some b =>
    by_cases hbt : b.btype = "flatpak"
    · cases hf : fetchPackage o rp st rn (appRefOf c) with
      | ok r =>
        cases hrt : b.runtime with
        | some rt =>
          cases hf2 : fetchPackage o rp r.state rn ("runtime/" ++ rt) <;>
            simp [hbt, hf, hrt, hf2]
        | none => simp [hbt, hf, hrt]
      | error e =>
        cases hrt : b.runtime with
        | some rt =>
          cases hf2 : fetchPackage o rp st rn ("runtime/" ++ rt) <;>
            simp [hbt, hf, hrt, hf2]
        | none => simp [hbt, hf, hrt]
    · cases hrt : b.runtime with
      | some rt =>
        cases hf2 : fetchPackage o rp st rn ("runtime/" ++ rt) <;>
          simp [hbt, hf2, hrt]
      | none => simp [hbt, hrt]

theorem runComponents_attempted (o : Oracle) (rp rn : String)
    (comps : List Component) :
    ∀ st, (runComponents o rp rn st comps).attempted
      = comps.flatMap derivedRefs := by
  induction comps with
  | nil => intro st; rfl
  | cons c rest ih =>
    intro st
    simp [runComponents, processComponent_attempted, ih]

theorem runComponents_mirrored_subset (o : Oracle) (rp rn : String)
    (comps : List Component) :
    ∀ st, (runComponents o rp rn st comps).mirrored ⊆ comps := by
  induction comps with
  | nil => intro st; simp [runComponents]
  | cons c rest ih =>
    intro st
    simp only [runComponents]
    intro x hx
    rcases List.mem_append.mp hx with hx | hx
    · by_cases hm : (processComponent o rp rn st c).mirrored
      · simp [hm] at hx
        simp [hx]
      · simp [hm] at hx
    · exact List.mem_cons_of_mem c (ih _ hx)

theorem runComponents_mirrored_length (o : Oracle) (rp rn : String)
    (comps : List Component) :
    ∀ st, (runComponents o rp rn st comps).mirrored.length ≤ comps.length := by
  induction comps with
  | nil => intro st; simp [runComponents]
  | cons c rest ih =>
    intro st
    simp only [runComponents, List.length_append, List.length_cons]
    have h := ih (processComponent o rp rn st c).state
    by_cases hm : (processComponent o rp rn st c).mirrored <;>
      simp [hm] <;> omega

/-- An app-fetch failure is caught into the component's error list; the
component stays out of the mirrored set, and the runtime ref (when one
is named) is still attempted. -/
theorem processComponent_app_error_captured (o : Oracle) (rp rn : String)
    (st : RepoState) (c : Component) (b : Bundle) (e : String)
    (hb : c.bundle.head? = some b) (ht : b.btype = "flatpak")
    (hf : fetchPackage o rp st rn (appRefOf c) = .error e) :
    e ∈ (processComponent o rp rn st c).errors ∧
    (processComponent o rp rn st c).mirrored = false ∧
    (∀ rt, b.runtime = some rt →
      ("runtime/" ++ rt) ∈ (processComponent o rp rn st c).attempted) := by
  refine ⟨?_, ?_, ?_⟩
  · unfold processComponent
    cases hrt : b.runtime with
    | some rt =>
      cases hf2 : fetchPackage o rp st rn ("runtime/" ++ rt) <;>
        simp [hb, ht, hf, hrt, hf2]
    | none => simp [hb, ht, hf, hrt]
  · unfold processComponent
    simp [hb, ht, hf]
  · intro rt hrt
    rw [processComponent_attempted]
    unfold derivedRefs
    simp [hb, ht, hrt]

/-- A runtime-fetch failure (for a store-independent failure such as the
remote lacking the ref) is likewise caught into the component's error
list and does not abort anything. -/
theorem processComponent_runtime_error_captured (o : Oracle) (rp rn : String)
    (st : RepoState) (c : Component) (b : Bundle) (rt e : String)
    (hb : c.bundle.head? = some b) (hrt : b.runtime = some rt)
    (hf : ∀ s : RepoState, fetchPackage o rp s rn ("runtime/" ++ rt) = .error e) :
    e ∈ (processComponent o rp rn st c).errors := by
  unfold processComponent
  by_cases ht : b.btype = "flatpak"
  · cases hfa : fetchPackage o rp st rn (appRefOf c) with
    | ok r => simp [hb, ht, hrt, hfa, hf r.state]
    | error ea => simp [hb, ht, hrt, hfa, hf st]
  · simp [hb, ht, hrt, hf st]

theorem runtime_ne_app_ref (x y : String) : "runtime/" ++ x ≠ "app/" ++ y := by
  intro h
  have h2 := congrArg String.data h
  simp [String.data_append] at h2

theorem runtime_ref_inj (x y : String)
    (h : "runtime/" ++ x = "runtime/" ++ y) : x = y := by
  have h2 := congrArg String.data h
  simp [String.data_append] at h2
  exact String.ext h2

/-- C5: a failure at any stage while processing one PackageRef never
aborts the batch: the list of refs attempted over a batch is fully
determined by the components alone (identical for any two oracles and
start states, i.e. every remaining PackageRef is still attempted after
any failure), app-fetch and runtime-fetch failures are caught into the
per-component error list, and an app failure still leaves the runtime
ref attempted. -/
theorem batch_failure_isolation (o : Oracle) (rp rn : String)
    (st : RepoState) (comps : List Component) :
    (runComponents o rp rn st comps).attempted = comps.flatMap derivedRefs ∧
    (∀ (o' : Oracle) (st' : RepoState),
      (runComponents o' rp rn st' comps).attempted
        = (runComponents o rp rn st comps).attempted) ∧
    (∀ c b e, c.bundle.head? = some b → b.btype = "flatpak" →
      ∀ s, fetchPackage o rp s rn (appRefOf c) = .error e →
        e ∈ (processComponent o rp rn s c).errors ∧
        (processComponent o rp rn s c).mirrored = false ∧
        (∀ rt, b.runtime = some rt →
          ("runtime/" ++ rt) ∈ (processComponent o rp rn s c).attempted)) ∧
    (∀ c b rt e, c.bundle.head? = some b → b.runtime = some rt →
      (∀ s : RepoState,
        fetchPackage o rp s rn ("runtime/" ++ rt) = .error e) →
      ∀ s, e ∈ (processComponent o rp rn s c).errors) := by
  refine ⟨runComponents_attempted o rp rn comps st, ?_, ?_, ?_⟩
  · intro o' st'
    rw [runComponents_attempted, runComponents_attempted]
  · intro c b e hb ht s hf
    exact processComponent_app_error_captured o rp rn s c b e hb ht hf
  · intro c b rt e hb hrt hf s
    exact processComponent_runtime_error_captured o rp rn s c b rt e hb hrt hf

/-- Witness for C5: under an oracle where every pull fails, the failure
is captured per component, the component is not mirrored, and the
runtime ref is still attempted. -/
theorem batch_failure_isolation_witness :
    ("Failed to run ostree pull: 404" ∈
      (processComponent failOracle "usrpkg-repo" "flathub" st0 compA).errors) ∧
    (processComponent failOracle "usrpkg-repo" "flathub" st0 compA).mirrored
      = false ∧
    ("runtime/" ++ "org.fd.Platform/x86_64/23.08") ∈
      (processComponent failOracle "usrpkg-repo" "flathub" st0 compA).attempted := by
  have h := (batch_failure_isolation failOracle "usrpkg-repo" "flathub" st0
      [compA]).2.2.1 compA
      { btype := "flatpak"
      , runtime := some "org.fd.Platform/x86_64/23.08"
      , sdk := some "org.fd.Sdk/x86_64/23.08" }
      "Failed to run ostree pull: 404" rfl rfl st0 rfl
  exact ⟨h.1, h.2.1, h.2.2 "org.fd.Platform/x86_64/23.08" rfl⟩

/-- C8: the set of refs pulled for a component is exactly the app ref
(when the bundle kind indicates a deployable flatpak app) plus the
runtime ref (when one is named); the SDK ref is never pulled (the SDK
pull block is commented out in the source). -/
theorem sdk_never_pulled (o : Oracle) (rp rn : String) (st : RepoState)
    (c : Component) :
    (processComponent o rp rn st c).attempted = derivedRefs c ∧
    (∀ b s, c.bundle.head? = some b → b.sdk = some s → b.runtime ≠ some s →
      ("runtime/" ++ s) ∉ (processComponent o rp rn st c).attempted) := by
  refine ⟨processComponent_attempted o rp rn st c, ?_⟩
  intro b s hb hsdk hne hmem
  rw [processComponent_attempted] at hmem
  unfold derivedRefs at hmem
  rw [hb] at hmem
  rcases List.mem_append.mp hmem with hm | hm
  · by_cases ht : b.btype = "flatpak"
    · rw [if_pos ht] at hm
      simp only [List.mem_singleton] at hm
      exact runtime_ne_app_ref s (appIdOf c ++ "/x86_64/stable")
        (by simpa [appRefOf, String.append_assoc] using hm)
    · rw [if_neg ht] at hm
      simp at hm
  · cases hrt : b.runtime with
    | none => rw [hrt] at hm; simp at hm
    | some rt =>
      rw [hrt] at hm
      simp only [List.mem_singleton] at hm
      exact hne (by rw [hrt, runtime_ref_inj s rt hm])

/-- Witness for C8 at a concrete component whose SDK differs from its
runtime: the SDK ref is absent from the attempted pulls. -/
theorem sdk_never_pulled_witness :
    ("runtime/" ++ "org.fd.Sdk/x86_64/23.08") ∉
      (processComponent okOracle "usrpkg-repo" "flathub" st0 compA).attempted :=
  (sdk_never_pulled okOracle "usrpkg-repo" "flathub" st0 compA).2
    { btype := "flatpak"
    , runtime := some "org.fd.Platform/x86_64/23.08"
    , sdk := some "org.fd.Sdk/x86_64/23.08" }
    "org.fd.Sdk/x86_64/23.08" rfl rfl (by decide)

/-- C10: per remote, the orchestrator processes at most the first three
catalog components, in catalog order: the whole pass result equals the
pass over `catalog.take 3`, the mirrored set is contained in those
first three, never exceeds three, and for every configuration the
attempted refs are exactly those derived from the first three
components (no configuration raises or removes the cap). -/
theorem component_cap_three (o : Oracle) (cfg : Config) (rn : String)
    (st : RepoState) (catalog : List Component) :
    processRemote o cfg rn st catalog
      = processRemote o cfg rn st (catalog.take 3) ∧
    (processRemote o cfg rn st catalog).mirrored ⊆ catalog.take 3 ∧
    (processRemote o cfg rn st catalog).mirrored.length ≤ 3 ∧
    (∀ cfg' : Config, (processRemote o cfg' rn st catalog).attempted
      = (catalog.take 3).flatMap derivedRefs) := by
  refine ⟨?_, ?_, ?_, ?_⟩
  · simp [processRemote, List.take_take]
  · exact runComponents_mirrored_subset o cfg.repo_name rn (catalog.take 3) st
  · calc (processRemote o cfg rn st catalog).mirrored.length
        ≤ (catalog.take 3).length :=
          runComponents_mirrored_length o cfg.repo_name rn (catalog.take 3) st
      _ ≤ 3 := by simp [List.length_take]
  · intro cfg'
    exact runComponents_attempted o cfg'.repo_name rn (catalog.take 3) st

/-- Witness for C10 on a four-component catalog: the fourth component is
never processed and at most three components are mirrored. -/
theorem component_cap_three_witness :
    (processRemote okOracle cfg0 "flathub" st0 catalogW).mirrored.length ≤ 3 ∧
    (processRemote okOracle cfg0 "flathub" st0 catalogW).attempted
      = (catalogW.take 3).flatMap derivedRefs :=
  ⟨(component_cap_three okOracle cfg0 "flathub" st0 catalogW).2.2.1,
   (component_cap_three okOracle cfg0 "flathub" st0 catalogW).2.2.2 cfg0⟩

/-! ### Catalog-ref commits and the reconciliation ladder (C6, C7) -/

theorem find_key_map_other (refs : List (String × String)) (n c m : String)
    (hne : m ≠ n) :
    (refs.map (fun p => if p.1 = n then (n, c) else p)).find?
      (fun p => p.1 = m) = refs.find? (fun p => p.1 = m) := by
  induction refs with
  | nil => rfl
  | cons p rest ih =>
    by_cases hp : p.1 = n
    · have hfp : (if p.1 = n then (n, c) else p) = (n, c) := if_pos hp
      have h1 : ¬((n, c).1 = m) := fun h => hne h.symm
      have h2 : ¬(p.1 = m) := by rw [hp]; exact fun h => hne h.symm
      rw [List.map_cons, hfp, List.find?_cons_of_neg _ (by simpa using h1),
        List.find?_cons_of_neg _ (by simpa using h2), ih]
    · have hfp : (if p.1 = n then (n, c) else p) = p := if_neg hp
      by_cases hpm : p.1 = m
      · rw [List.map_cons, hfp, List.find?_cons_of_pos _ (by simpa using hpm),
          List.find?_cons_of_pos _ (by simpa using hpm)]
      · rw [List.map_cons, hfp, List.find?_cons_of_neg _ (by simpa using hpm),
          List.find?_cons_of_neg _ (by simpa using hpm), ih]

theorem find_key_append_other (refs : List (String × String)) (n c m : String)
    (hne : m ≠ n) :
    (refs ++ [(n, c)]).find? (fun p => p.1 = m)
      = refs.find? (fun p => p.1 = m) := by
  induction refs with
  | nil => simp [List.find?, hne.symm]
  | cons p rest ih =>
    by_cases hpm : p.1 = m <;> simp [List.find?, hpm, ih]

/-- A forced ref create leaves every other ref untouched. -/
theorem lookupRef_createRefForce_other (refs : List (String × String))
    (n c m : String) (hne : m ≠ n) :
    lookupRef (createRefForce refs n c) m = lookupRef refs m := by
  unfold lookupRef createRefForce
  by_cases h : refs.any (fun p => p.1 = n) = true
  · rw [if_pos h, find_key_map_other refs n c m hne]
  · rw [if_neg h, find_key_append_other refs n c m hne]

/-- The per-ref commit loop only moves the refs it is iterating over. -/
theorem commitLoop_refs_other (o : ROracle) (m : String) :
    ∀ (bs : List String) (refs : List (String × String)), m ∉ bs →
      lookupRef (commitLoop o refs bs).refs m = lookupRef refs m := by
  intro bs
  induction bs with
  | nil => intro refs _; rfl
  | cons b rest ih =>
    intro refs hm
    have hmb : m ≠ b := fun h => hm (h ▸ List.mem_cons_self b rest)
    have hmr : m ∉ rest := fun h => hm (List.mem_cons_of_mem b h)
    cases hc : o.commitBranch b with
    | ok h =>
      simp only [commitLoop, hc]
      rw [ih (createRefForce refs b h) hmr,
        lookupRef_createRefForce_other refs b h m hmb]
    | error e =>
      simp only [commitLoop, hc]
      exact ih refs hmr

/-- C6: in the catalog-commit fallback the staged tree is committed to
both catalog refs independently: the committed set is exactly the refs
whose own `ostree commit` succeeded, and in particular a failing
legacy-ref commit does not prevent the current-ref commit, which still
lands and moves `appstream2/x86_64`. -/
theorem stageB_refs_committed_independently (o : ROracle)
    (refs : List (String × String)) (files : List String)
    (ha : o.activeFiles = .ok files) (hne : files ≠ []) :
    (commitAppstreamStep o refs).committed
      = appstreamRefNames.filter (fun b => exceptOk (o.commitBranch b)) ∧
    (∀ e h, o.commitBranch "appstream/x86_64" = .error e →
      o.commitBranch "appstream2/x86_64" = .ok h →
      (commitAppstreamStep o refs).committed = ["appstream2/x86_64"] ∧
      lookupRef (commitAppstreamStep o refs).refs "appstream2/x86_64"
        = some h) := by
  have hemp : files.isEmpty = false := by
    cases files with
    | nil => exact absurd rfl hne
    | cons a l => rfl
  constructor
  · unfold commitAppstreamStep
    rw [ha]
    simp only [hemp, Bool.false_eq_true, if_false]
    cases hc1 : o.commitBranch "appstream/x86_64" <;>
      cases hc2 : o.commitBranch "appstream2/x86_64" <;>
        simp [commitLoop, appstreamRefNames, hc1, hc2, exceptOk]
  · intro e h hc1 hc2
    unfold commitAppstreamStep
    rw [ha]
    simp only [hemp, Bool.false_eq_true, if_false]
    constructor
    · simp [commitLoop, appstreamRefNames, hc1, hc2]
    · simp only [commitLoop, appstreamRefNames, hc1, hc2]
      exact lookupRef_createRefForce_self refs "appstream2/x86_64" h

/-- Witness for C6: with the legacy commit refused and the current
commit succeeding, the current catalog ref is still committed. -/
theorem stageB_refs_committed_independently_witness :
    (commitAppstreamStep oC6 refs0).committed = ["appstream2/x86_64"] ∧
    lookupRef (commitAppstreamStep oC6 refs0).refs "appstream2/x86_64"
      = some "cafe0002" :=
  (stageB_refs_committed_independently oC6 refs0 ["appstream.xml"]
      rfl (by decide)).2
    "legacy commit refused" "cafe0002" rfl rfl

/-- C7 counterexample: Stage A fails and the fallback's summary update
also fails.  The `Failed to update summary` error escapes
`createSummary` uncaught, so the run as a whole aborts with that error
(the trailing .flatpakrepo step is never reached) — contradicting the
claim that only the metadata step fails and the pass does not. -/
theorem reconcile_last_stage_failure_aborts_run_cex :
    (createSummary oC7 cfg0 refs0).outcome
      = .error "Failed to update summary: disk full" ∧
    finalizeRun oC7 cfg0 refs0
      = .error "Failed to update summary: disk full" :=
  ⟨rfl, rfl⟩

/-- C7 as amended: a Stage A failure triggers the manual fallback, and a
Stage A success skips it; when the fallback's summary update also
fails, the error propagates out of `createSummary` uncaught and the
remainder of the run aborts with it; yet no reconciliation step ever
rewrites a local ref other than the two catalog refs, so
already-promoted refs remain valid and unchanged even on failure. -/
theorem reconcile_fallback_behavior (o : ROracle) (cfg : Config)
    (refs : List (String × String)) :
    (∀ e, o.buildUpdateRepo = .error e →
      (createSummary o cfg refs).usedFallback = true) ∧
    (∀ u, o.buildUpdateRepo = .ok u →
      (createSummary o cfg refs).usedFallback = false ∧
      (createSummary o cfg refs).outcome = .ok ()) ∧
    (∀ e e', o.buildUpdateRepo = .error e → o.summaryUpdate = .error e' →
      finalizeRun o cfg refs = .error ("Failed to update summary: " ++ e')) ∧
    (∀ name, name ∉ appstreamRefNames →
      lookupRef (createSummary o cfg refs).refs name = lookupRef refs name) := by
  have hstep : ∀ name, name ∉ appstreamRefNames →
      lookupRef (commitAppstreamStep o refs).refs name = lookupRef refs name := by
    intro name hname
    unfold commitAppstreamStep
    cases ha : o.activeFiles with
    | error e => rfl
    | ok files =>
      cases hfe : files.isEmpty with
      | true => simp only [hfe, if_true]
      | false =>
        simp only [hfe, Bool.false_eq_true, if_false]
        exact commitLoop_refs_other o name appstreamRefNames refs hname
  refine ⟨?_, ?_, ?_, ?_⟩
  · intro e he
    cases hs : o.summaryUpdate <;>
      simp [createSummary, manualUpdate, he, hs]
  · intro u hu
    simp [createSummary, hu]
  · intro e e' he hs
    simp [finalizeRun, createSummary, manualUpdate, he, hs]
  · intro name hname
    cases hb : o.buildUpdateRepo with
    | ok u => simp [createSummary, hb]
    | error e =>
      cases hs : o.summaryUpdate <;>
        simpa [createSummary, manualUpdate, hb, hs] using hstep name hname

/-- Witness for the amended C7 at the concrete failing oracle: the
fallback ran, the run aborted with the summary error, and the promoted
app ref is untouched. -/
theorem reconcile_fallback_behavior_witness :
    (createSummary oC7 cfg0 refs0).usedFallback = true ∧
    finalizeRun oC7 cfg0 refs0
      = .error ("Failed to update summary: " ++ "disk full") ∧
    lookupRef (createSummary oC7 cfg0 refs0).refs
      "app/org.example.App/x86_64/stable"
      = lookupRef refs0 "app/org.example.App/x86_64/stable" :=
  ⟨(reconcile_fallback_behavior oC7 cfg0 refs0).1 "exit 1" rfl,
   (reconcile_fallback_behavior oC7 cfg0 refs0).2.2.1 "exit 1" "disk full"
     rfl rfl,
   (reconcile_fallback_behavior oC7 cfg0 refs0).2.2.2
     "app/org.example.App/x86_64/stable" (by decide)⟩

/-! ### Catalog fetch: cache dominance (C9) -/

/-- C9: the catalog fetch is cache-dominated and URL-independent once
warm.  With the fixed cache file present, `fetchAppstream u₁` and
`fetchAppstream u₂` coincide for any two URLs and any two networks,
both returning the parse of the cached file with no download; and
starting cold, the first remote's fetch populates the cache, after
which a second remote with a different URL receives the first remote's
catalog without downloading. -/
theorem catalog_cache_url_independent
    (gunzip : String → String)
    (parse : String → Except String AppstreamData) :
    (∀ (net₁ net₂ : String → Except Nat String) (cfs : CacheFS)
        (d u₁ u₂ : String), cfs.xmlFile = some d →
      fetchAppstream net₁ gunzip parse cfs u₁
        = fetchAppstream net₂ gunzip parse cfs u₂ ∧
      (∀ r, fetchAppstream net₁ gunzip parse cfs u₁ = .ok r →
        r.downloads = [] ∧ parse d = .ok r.data ∧ r.cache = cfs)) ∧
    (∀ (net : String → Except Nat String) (cfs₀ : CacheFS)
        (g u₁ u₂ : String) (r : AppstreamData),
      cfs₀.xmlFile = none → net u₁ = .ok g → parse (gunzip g) = .ok r →
      fetchAppstream net gunzip parse cfs₀ u₁
        = .ok { data := r
              , cache := { xmlFile := some (gunzip g), gzFile := some g }
              , downloads := [u₁] } ∧
      (∀ net' : String → Except Nat String,
        fetchAppstream net' gunzip parse
            { xmlFile := some (gunzip g), gzFile := some g } u₂
          = .ok { data := r
                , cache := { xmlFile := some (gunzip g), gzFile := some g }
                , downloads := [] })) := by
  constructor
  · intro net₁ net₂ cfs d u₁ u₂ hc
    constructor
    · unfold fetchAppstream
      rw [hc]
    · intro r hr
      unfold fetchAppstream at hr
      cases hp : parse d with
      | ok a =>
        simp only [hc, hp, Except.ok.injEq] at hr
        subst hr
        exact ⟨rfl, rfl, rfl⟩
      | error e => simp [hc, hp] at hr
  · intro net cfs₀ g u₁ u₂ r hc hn hp
    constructor
    · simp [fetchAppstream, hc, hn, hp]
    · intro net'
      simp [fetchAppstream, hp]

/-- Witness for C9: concrete codecs and networks.  Warm: a fetch under a
working network and a fetch under a failing network agree, returning
the cached catalog.  Cold: the first URL's download is cached, and the
second URL's fetch returns the first URL's catalog with no download. -/
theorem catalog_cache_url_independent_witness :
    fetchAppstream netW gunzipW parseW cacheW "http://remote-a"
      = fetchAppstream netW2 gunzipW parseW cacheW "http://remote-b" ∧
    fetchAppstream netW2 gunzipW parseW
        { xmlFile := some (gunzipW "gz-http://remote-a")
        , gzFile := some "gz-http://remote-a" } "http://remote-b"
      = .ok { data := { components :=
                [{ id := ["<xml>gz-http://remote-a</xml>"], bundle := [] }] }
            , cache := { xmlFile := some (gunzipW "gz-http://remote-a")
                       , gzFile := some "gz-http://remote-a" }
            , downloads := [] } := by
  constructor
  · exact ((catalog_cache_url_independent gunzipW parseW).1 netW netW2 cacheW
      "CACHED" "http://remote-a" "http://remote-b" rfl).1
  · have h := ((catalog_cache_url_independent gunzipW parseW).2 netW cacheCold
      "gz-http://remote-a" "http://remote-a" "http://remote-b"
      { components := [{ id := ["<xml>gz-http://remote-a</xml>"], bundle := [] }] }
      rfl rfl rfl).2 netW2
    exact h

end UsrpkgBuilder
